import Mathlib

/-!
Verification of the government-data ingestion scripts
(`scripts/ingest/gov_ingest.py` and `scripts/ingest/gov_source_ingestor.py`).

The Python code is shallowly embedded: dictionaries become association
lists over a small value type `PyVal`, fallible calls (HTTP fetches,
JSON decoding, content extraction) become `Except`/`Option`-valued
inputs, and the unbounded `while True` pagination loops take explicit
fuel.  External collaborators (requests, hashlib, BeautifulSoup, the
vector store, the wall clock) are passed in as parameters, so every
definition stays executable.
-/

/-- Model of the Python values the scripts store in their dictionaries:
`None` and strings.  (The scripts only ever read scalar fields out of
the JSON dictionaries they traverse; list-valued fields such as
`items`/`results`/`packages` are modelled as typed fields of the
response structures below.) -/
inductive PyVal where
  | none
  | str (s : String)
deriving DecidableEq

/-- Python truthiness for the modelled values: `None` is falsy and a
string is truthy iff it is non-empty. -/
def pyTruthy : PyVal → Bool
  | PyVal.none => false
  | PyVal.str s => s ≠ ""

/-- Python's `a or b`: `a` if truthy, else `b`. -/
def pyOr (a b : PyVal) : PyVal :=
  if pyTruthy a then a else b

/-- View a modelled value as a string (`None` reads as `""`; the scripts
only do this after an `x or ''` guard, so the `None` arm is unreachable
there). -/
def pyToStr : PyVal → String
  | PyVal.none => ""
  | PyVal.str s => s

/-- Inject an optional string into the value model (`None` for absent). -/
def pyOfOpt : Option String → PyVal
  | Option.none => PyVal.none
  | some s => PyVal.str s

/-- A Python dictionary as seen by the scripts: an association list from
string keys to values. -/
abbrev Dict := List (String × PyVal)

/-- Python `d.get(k)`: the value under `k`, or `None` when the key is absent. -/
def dictGet (d : Dict) (k : String) : PyVal :=
  match d.find? (fun p => p.1 == k) with
  | some p => p.2
  | Option.none => PyVal.none

/-- Python `k in d`: key membership of a Python dictionary. -/
def dictHasKey (d : Dict) (k : String) : Bool :=
  k ∈ d.map Prod.fst

/-- A listing entry returned by a paginated API (a JSON object). -/
abbrev Item := Dict

/-- A document dictionary handed to `GovDataIngestor`. -/
abbrev Doc := Dict

/-! ## `gov_source_ingestor.py`: `GovDataIngestor` -/

/-- Model of `GovDataIngestor._extract_content`:
`document.get('text') or document.get('content') or ''`. -/
def _extract_content (document : Doc) : PyVal :=
  pyOr (dictGet document "text") (pyOr (dictGet document "content") (PyVal.str ""))

/-- Model of `GovDataIngestor._create_metadata`.  `datetime.now().isoformat()` is
an impure external input, passed in as `now`. -/
def _create_metadata (now : String) (document : Doc) : Dict :=
  [("source", PyVal.str (if "download" ∈ document.map Prod.fst then "govinfo" else "congress")),
   ("date", pyOr (dictGet document "dateIssued") (PyVal.str now)),
   ("document_id", pyOr (dictGet document "packageId") (dictGet document "id")),
   ("collection", dictGet document "collection")]

/-- One entry of the `processed` list built by
`GovDataIngestor.process_and_store`:
`{'content': self._extract_content(doc), 'metadata': self._create_metadata(doc)}`. -/
structure Processed where
  content : PyVal
  metadata : Dict
deriving DecidableEq

/-- The `for doc in documents` loop of `process_and_store`.  The
per-document extraction step is a method call that Python may abort with
an exception, so it is passed in as an `Except`-valued function; the
loop itself installs no handler, so the first error propagates. -/
def processLoop (extract : Doc → Except String PyVal) (now : String) :
    List Doc → Except String (List Processed)
  | [] => .ok []
  | d :: ds =>
    match extract d with
    | .error e => .error e
    | .ok c =>
      match processLoop extract now ds with
      | .error e => .error e
      | .ok rest => .ok ({ content := c, metadata := _create_metadata now d } :: rest)

/-- Model of `GovDataIngestor.process_and_store`.  The result records what
reaches the vector store: `.ok (some batch)` means
`vector_store.add_documents(batch)` was invoked, `.ok Option.none` means
the guard `if processed:` suppressed the call, and `.error e` means an
exception propagated out before the guard was reached. -/
def process_and_store (extract : Doc → Except String PyVal) (now : String)
    (documents : List Doc) : Except String (Option (List Processed)) :=
  match processLoop extract now documents with
  | .error e => .error e
  | .ok processed => .ok (if processed.isEmpty then Option.none else some processed)

/-- The actual per-document extraction of the source, which never
raises on dictionary input. -/
def extractImpl (d : Doc) : Except String PyVal := .ok (_extract_content d)

/-- Holds exactly when the modelled `process_and_store` outcome calls
`add_documents` with an empty batch. -/
def addDocumentsCalledEmpty : Except String (Option (List Processed)) → Bool
  | .ok (some ps) => ps.isEmpty
  | _ => false

/-- One page of the congress.gov API as read by `fetch_congress_data`:
`data.get('results', [])` and `data.get('pagination', {}).get('nextPage')`. -/
structure CongressPage where
  results : List Doc
  nextPage : PyVal
deriving DecidableEq

/-- The `while True` loop of `GovDataIngestor.fetch_congress_data`,
with the surrounding `try`/`except`: a failing page fetch is caught and
the results accumulated so far are returned as the (successful) value.
`fetch` models `requests.get` + `raise_for_status` + `.json()` for a
given page number; fuel bounds the unbounded loop. -/
def congressLoop (fetch : Nat → Except String CongressPage) :
    Nat → Nat → List Doc → List Doc
  | 0, _, acc => acc
  | fuel + 1, page, acc =>
    match fetch page with
    | .error _ => acc
    | .ok data =>
      let acc' := acc ++ data.results
      if pyTruthy data.nextPage then congressLoop fetch fuel (page + 1) acc'
      else acc'

/-- Model of `GovDataIngestor.fetch_congress_data`: start at page 1 with an empty
result list. -/
def fetch_congress_data (fetch : Nat → Except String CongressPage) (fuel : Nat) :
    List Doc :=
  congressLoop fetch fuel 1 []

/-- The govinfo bulk response: `response.json().get('packages', [])`. -/
structure GovBulkResp where
  packages : Option (List Doc)
deriving DecidableEq

/-- Model of `GovDataIngestor.fetch_govinfo_bulk`: a single fetch whose
`try`/`except` converts any failure into an empty list. -/
def fetch_govinfo_bulk (response : Except String GovBulkResp) : List Doc :=
  match response with
  | .error _ => []
  | .ok r => r.packages.getD []

/-! ## `gov_ingest.py` -/

/-- Whether `pat` occurs at the head of `l` (character-wise). -/
def leadMatch : List Char → List Char → Bool
  | [], _ => true
  | _ :: _, [] => false
  | a :: pat, b :: l => a == b && leadMatch pat l

/-- Whether `pat` occurs somewhere inside `l`; models Python's
substring test `pat in s`. -/
def containsSeq (pat : List Char) : List Char → Bool
  | [] => pat.isEmpty
  | c :: rest => leadMatch pat (c :: rest) || containsSeq pat rest

/-- Python `pat in s` on strings. -/
def strIn (pat s : String) : Bool :=
  containsSeq pat.toList s.toList

/-- The result of `{title, date}` metadata extraction. -/
structure Meta where
  title : Option String
  date : Option String
deriving DecidableEq

/-- A `meta` element found by BeautifulSoup; `content` is its `content`
attribute (`None` when the attribute is missing). -/
structure MetaTag where
  content : Option String
deriving DecidableEq

/-- The portions of a parsed BeautifulSoup document that
`extract_metadata` reads: `soup.title.string` (absent when there is no
`title` element or it has no string), the first
`meta[name=date]` element and the first
`meta[property=article:published_time]` element. -/
structure Soup where
  titleString : Option String
  metaDate : Option MetaTag
  metaPublished : Option MetaTag
deriving DecidableEq

/-- Model of `extract_metadata(html_text)`.  BeautifulSoup is external: `parse`
models `BeautifulSoup(html_text, 'html.parser')` together with the
element lookups, returning `Option.none` when parsing raises — the
`try`/`except Exception: pass` of the source then leaves both fields
`None`.  A found element is truthy, so `find(...) or find(...)` prefers
the `meta[name=date]` element whenever it exists. -/
def extract_metadata (parse : String → Option Soup) (html_text : String) : Meta :=
  if html_text = "" then ⟨Option.none, Option.none⟩
  else
    match parse html_text with
    | Option.none => ⟨Option.none, Option.none⟩
    | some soup =>
      let title : Option String :=
        match soup.titleString with
        | some s => if s = "" then Option.none else some s.trim
        | Option.none => Option.none
      let m : Option MetaTag := soup.metaDate <|> soup.metaPublished
      let date : Option String :=
        match m with
        | some t =>
          match t.content with
          | some c => if c = "" then Option.none else some c
          | Option.none => Option.none
        | Option.none => Option.none
      ⟨title, date⟩

/-- One NDJSON record as emitted by `emit(...)`: the dictionary
`{'url': ..., 'title': ..., 'date': ..., 'content': ..., 'source': ...}`. -/
structure Record where
  url : PyVal
  title : PyVal
  date : PyVal
  content : PyVal
  source : PyVal
deriving DecidableEq

/-- Python `it.get('url') or it.get('downloadUrl') or it.get('link')`. -/
def itemUrl (it : Item) : PyVal :=
  pyOr (pyOr (dictGet it "url") (dictGet it "downloadUrl")) (dictGet it "link")

/-- The body of the `for it in items` loop of
`ingest_govinfo_collection`: derive the url, fetch the document body
(`fetch_direct`, modelled by `fetchDoc`) with the per-document
`try`/`except` converting a failure into the
`<fetch-error>...</fetch-error>` placeholder, extract metadata, and
build the emitted record. -/
def processItem (fetchDoc : String → Except String String)
    (parse : String → Option Soup) (it : Item) : Record :=
  let url := itemUrl it
  let title := pyOr (pyOr (dictGet it "title") (dictGet it "name")) (PyVal.str "")
  let content : String :=
    if pyTruthy url then
      match fetchDoc (pyToStr url) with
      | .ok c => c
      | .error e => "<fetch-error>" ++ e ++ "</fetch-error>"
    else ""
  let meta := extract_metadata parse content
  { url := url
    title := pyOr (pyOfOpt meta.title) title
    date := pyOfOpt meta.date
    content := PyVal.str content
    source := PyVal.str "govinfo" }

/-- A govinfo collections response as read by the pager:
`resp.get('items')` and `resp.get('results')` (list-valued keys,
possibly absent). -/
structure Resp where
  items : Option (List Item)
  results : Option (List Item)
deriving DecidableEq

/-- Python `resp.get('items') or resp.get('results') or []`. -/
def respItems (r : Resp) : List Item :=
  let i := r.items.getD []
  if i.isEmpty then r.results.getD [] else i

/-- The `while True` pager of `ingest_govinfo_collection`.  `fetchApi`
models `fetch_govinfo_api` applied to the request offset
`(page-1)*pagesize`; a failure there propagates (there is no handler
around the page fetch).  The result pairs the emitted records with the
number of page-fetch calls issued.  Fuel bounds the unbounded loop;
running out of fuel returns the records gathered so far. -/
def ingestLoop (fetchApi : Nat → Except String Resp)
    (fetchDoc : String → Except String String) (parse : String → Option Soup)
    (pagesize : Nat) : Nat → Nat → Except String (List Record × Nat)
  | 0, _ => .ok ([], 0)
  | fuel + 1, page =>
    match fetchApi ((page - 1) * pagesize) with
    | .error e => .error e
    | .ok resp =>
      let items := respItems resp
      if items.isEmpty then .ok ([], 1)
      else
        let recs := items.map (processItem fetchDoc parse)
        if items.length < pagesize then .ok (recs, 1)
        else
          match ingestLoop fetchApi fetchDoc parse pagesize fuel (page + 1) with
          | .error e => .error e
          | .ok (rest, calls) => .ok (recs ++ rest, calls + 1)

/-- Model of `ingest_govinfo_collection`: page numbering starts at 1 and the
requested page size is the constant 100 of the source. -/
def ingest_govinfo_collection (fetchApi : Nat → Except String Resp)
    (fetchDoc : String → Except String String) (parse : String → Option Soup)
    (fuel : Nat) : Except String (List Record × Nat) :=
  ingestLoop fetchApi fetchDoc parse 100 fuel 1

/-- A paginated source over a fixed item list `L` with page size `P`:
the page at request offset `off` holds `L[off : off+P]`, so every page
is full except possibly the last. -/
def sliceSource (L : List Item) (P : Nat) : Nat → Except String Resp :=
  fun off => .ok ⟨some ((L.drop off).take P), Option.none⟩

/-- The dedup key of `dedupe_and_emit`:
`record.get('url') or sha1((record.get('content') or '').encode('utf-8')).hexdigest()`.
`sha1hex` models hashlib's digest as an external function. -/
def dedupKey (sha1hex : String → String) (r : Record) : PyVal :=
  pyOr r.url (PyVal.str (sha1hex (pyToStr (pyOr r.content (PyVal.str "")))))

/-- Repeated `dedupe_and_emit` calls over a run: `seen` is the `_SEEN`
set, and the returned list holds the records that reach `emit`. -/
def dedupeRun (sha1hex : String → String) : List Record → List PyVal → List Record
  | [], _ => []
  | r :: rs, seen =>
    let key := dedupKey sha1hex r
    if key ∈ seen then dedupeRun sha1hex rs seen
    else r :: dedupeRun sha1hex rs (key :: seen)

/-- The target URL computed by `ingest_worker` (note the source tests
for the two-character substring `"? "`). -/
def workerTarget (worker_url path : String) : String :=
  if path = "" then worker_url
  else if strIn "? " worker_url then worker_url ++ "&path=" ++ path
  else worker_url ++ "?path=" ++ path

/-- The HTTP response seen by `ingest_worker`: the `content-type`
header (defaulted to `''`), the body text, and the decoded JSON body
(`Option.none` when `r.json()` raises). -/
structure WorkerResp where
  contentTypeHeader : String
  text : String
  json : Option Dict
deriving DecidableEq

/-- Model of `ingest_worker`: fetch the target (failures of `requests.get` /
`raise_for_status` propagate — there is no handler), then emit one
record, either straight from the decoded JSON body or wrapping the raw
HTML.  In the JSON branch the emitted `content` is `data.get('content')`
verbatim. -/
def ingest_worker (parse : String → Option Soup)
    (fetch : String → Except String WorkerResp)
    (worker_url path : String) : Except String Record :=
  let target := workerTarget worker_url path
  match fetch target with
  | .error e => .error e
  | .ok r =>
    if strIn "application/json" r.contentTypeHeader then
      match r.json with
      | Option.none => .error "json-decode-error"
      | some data =>
        let meta := extract_metadata parse (pyToStr (pyOr (dictGet data "content") (PyVal.str "")))
        .ok { url := dictGet data "url"
              title := pyOr (pyOfOpt meta.title) (PyVal.str "")
              date := pyOfOpt meta.date
              content := dictGet data "content"
              source := PyVal.str "worker" }
    else
      let meta := extract_metadata parse r.text
      .ok { url := PyVal.str target
            title := pyOr (pyOfOpt meta.title) (PyVal.str "")
            date := pyOfOpt meta.date
            content := PyVal.str r.text
            source := PyVal.str "worker" }

/-- The record built by the `congress` branch of `main`:
`{'url': target, 'title': '', 'content': content, 'source': 'congress'}`
(the dictionary carries no `date` key; the absent field is modelled as
`None`). -/
def congressRecord (target content : String) : Record :=
  { url := PyVal.str target
    title := PyVal.str ""
    date := PyVal.none
    content := PyVal.str content
    source := PyVal.str "congress" }

/-- The number of page-fetch calls of a pager outcome (0 for an error). -/
def callsOf : Except String (List Record × Nat) → Nat
  | .ok p => p.2
  | .error _ => 0

/-- The dedup keys of the records emitted by a pager outcome. -/
def emittedKeys (sha1hex : String → String) :
    Except String (List Record × Nat) → List PyVal
  | .ok p => p.1.map (dedupKey sha1hex)
  | .error _ => []

/-- The `content` field of an `ingest_worker` outcome (an error outcome
reads as the error text). -/
def contentOf : Except String Record → PyVal
  | .ok r => r.content
  | .error e => PyVal.str e

/-! ## Spec-side definitions (for the refinement claim about
`extract_metadata`) -/

/-- The date carried by one meta element: its `content` attribute when
present and non-empty. -/
def nonemptyContent (t : MetaTag) : Option String :=
  match t.content with
  | some c => if c = "" then Option.none else some c
  | Option.none => Option.none

/-- Modelled from the spec: "title is the document's title element text
(trimmed)", absent when there is none. -/
def title_per_spec (soup : Soup) : Option String :=
  soup.titleString.map String.trim

/-- Modelled from the spec: "date is read from a `date` meta tag or, if
absent, an `article:published_time` meta tag (first match wins, in that
priority order)". -/
def date_per_spec (soup : Soup) : Option String :=
  match soup.metaDate with
  | some t => nonemptyContent t
  | Option.none =>
    match soup.metaPublished with
    | some t => nonemptyContent t
    | Option.none => Option.none

/-! ## Theorems -/

/-- C10: the `source` tag written by `_create_metadata` is `govinfo`
exactly when the document dictionary has a `download` key, and
`congress` otherwise, regardless of every other part of the document
and of the clock. -/
theorem metadata_source_tag_by_download_key (now : String) (document : Doc) :
    dictGet (_create_metadata now document) "source" =
      PyVal.str (if "download" ∈ document.map Prod.fst then "govinfo" else "congress") := rfl

/-- C9: `process_and_store` never calls the store client's
`add_documents` with an empty batch: no outcome, for any extraction
behaviour and any input document list, is a bulk-add of zero documents. -/
theorem store_sink_never_bulk_adds_empty (extract : Doc → Except String PyVal)
    (now : String) (documents : List Doc) :
    addDocumentsCalledEmpty (process_and_store extract now documents) = false := by
  unfold process_and_store
  cases h : processLoop extract now documents with
  | error e => rfl
  | ok ps =>
    cases hps : ps.isEmpty with
    | true => simp [hps, addDocumentsCalledEmpty]
    | false => simp [hps, addDocumentsCalledEmpty]

/-- C6: `extract_metadata` is a total function, and whenever the
BeautifulSoup parse of the input fails (malformed markup) the result
has both fields absent. -/
theorem extract_metadata_parse_error_absent (parse : String → Option Soup)
    (html_text : String) (h : parse html_text = Option.none) :
    extract_metadata parse html_text = ⟨Option.none, Option.none⟩ := by
  unfold extract_metadata
  by_cases h0 : html_text = ""
  · simp [h0]
  · simp [h0, h]

/-- Witness for `extract_metadata_parse_error_absent`: a malformed
input whose parse fails yields `{title: absent, date: absent}`. -/
theorem extract_metadata_parse_error_absent_witness :
    extract_metadata (fun _ => Option.none) "<not html" = ⟨Option.none, Option.none⟩ :=
  extract_metadata_parse_error_absent (fun _ => Option.none) "<not html" rfl

/-- C8: for parsed HTML, `extract_metadata` computes exactly the
spec-side title (trimmed text of the title element, absent when there
is none) and the spec-side date (the `date` meta tag first, the
`article:published_time` meta tag only when the former is absent).
BeautifulSoup never reports an empty string as `soup.title.string`
(an empty title element has no string at all), hence the hypothesis
`soup.titleString ≠ some ""`. -/
theorem extract_metadata_title_date_priority (parse : String → Option Soup)
    (html_text : String) (soup : Soup) (h0 : html_text ≠ "")
    (hp : parse html_text = some soup) (ht : soup.titleString ≠ some "") :
    extract_metadata parse html_text = ⟨title_per_spec soup, date_per_spec soup⟩ := by
  unfold extract_metadata title_per_spec date_per_spec
  rw [if_neg h0, hp]
  refine congrArg₂ Meta.mk ?_ ?_
  · cases hts : soup.titleString with
    | none => rfl
    | some s =>
      have hs : ¬ s = "" := fun he => ht (by rw [hts, he])
      simp [hs]
  · cases hmd : soup.metaDate with
    | some t => simp [nonemptyContent]
    | none =>
      cases hmp : soup.metaPublished with
      | some t => simp [nonemptyContent]
      | none => simp

/-- Witness for `extract_metadata_title_date_priority` at a concrete
parsed document carrying a title and a `date` meta tag. -/
theorem extract_metadata_title_date_priority_witness :
    extract_metadata (fun _ => some ⟨some " T ", some ⟨some "2024-01-01"⟩, Option.none⟩)
        "<html>" =
      ⟨title_per_spec ⟨some " T ", some ⟨some "2024-01-01"⟩, Option.none⟩,
       date_per_spec ⟨some " T ", some ⟨some "2024-01-01"⟩, Option.none⟩⟩ :=
  extract_metadata_title_date_priority _ "<html>" _ (by decide) rfl (by decide)

/-- If the extraction step fails on a document `d`, the whole
`processLoop` call fails with that error, whatever comes before or
after `d` (documents before it must extract successfully for control to
reach `d`). -/
theorem processLoop_error_append (extract : Doc → Except String PyVal) (now : String)
    (d : Doc) (e : String) (hd : extract d = .error e) :
    ∀ (pre post : List Doc), (∀ d' ∈ pre, ∃ c, extract d' = .ok c) →
      processLoop extract now (pre ++ d :: post) = .error e := by
  intro pre
  induction pre with
  | nil => intro post _; simp [processLoop, hd]
  | cons a as ih =>
    intro post hpre
    obtain ⟨c, hc⟩ := hpre a (by simp)
    have hrest := ih post (fun d' h' => hpre d' (by simp [h']))
    simp [processLoop, hc, hrest]

/-- C5 (amended): `process_and_store` installs no per-document handler,
so a document whose content extraction raises aborts the whole batch:
the exception propagates and nothing is stored (`add_documents` is
never reached), instead of the document being skipped and counted. -/
theorem extract_error_aborts_batch (extract : Doc → Except String PyVal) (now : String)
    (pre post : List Doc) (d : Doc) (e : String)
    (hpre : ∀ d' ∈ pre, ∃ c, extract d' = .ok c) (hd : extract d = .error e) :
    process_and_store extract now (pre ++ d :: post) = .error e := by
  unfold process_and_store
  rw [processLoop_error_append extract now d e hd pre post hpre]

/-- Witness for `extract_error_aborts_batch`: a two-document batch
whose second document fails extraction propagates the error. -/
theorem extract_error_aborts_batch_witness :
    process_and_store
        (fun doc => if dictGet doc "id" = PyVal.str "bad" then .error "boom"
          else .ok (PyVal.str "c"))
        "t" [[("id", PyVal.str "ok")], [("id", PyVal.str "bad")]] = .error "boom" :=
  extract_error_aborts_batch _ "t" [[("id", PyVal.str "ok")]] [] [("id", PyVal.str "bad")]
    "boom"
    (by
      intro d' h
      simp only [List.mem_singleton] at h
      subst h
      exact ⟨PyVal.str "c", rfl⟩)
    rfl

/-- Counterexample to C5 as stated: a batch of 5 documents where
document #3 raises during content extraction does not store the other
4 with a skipped count of 1 — the run fails with the propagated
exception and stores nothing. -/
theorem batch_third_doc_error_cex :
    process_and_store
        (fun doc => if dictGet doc "id" = PyVal.str "3" then .error "boom"
          else .ok (PyVal.str "c"))
        "t"
        [[("id", PyVal.str "1")], [("id", PyVal.str "2")], [("id", PyVal.str "3")],
         [("id", PyVal.str "4")], [("id", PyVal.str "5")]] = .error "boom" := rfl

/-- C3 (amended): the `gov_ingest.py` pager propagates a page-level
fetch failure to its caller unchanged (no retry, no swallowing), while
`GovDataIngestor.fetch_congress_data` catches the failure and returns
the partial results accumulated so far as a success value, and
`GovDataIngestor.fetch_govinfo_bulk` catches it and returns an empty
list. -/
theorem page_fetch_error_behavior :
    (∀ (fetchApi : Nat → Except String Resp)
        (fetchDoc : String → Except String String) (parse : String → Option Soup)
        (pagesize page fuel : Nat) (e : String),
        fetchApi ((page - 1) * pagesize) = .error e →
        ingestLoop fetchApi fetchDoc parse pagesize (fuel + 1) page = .error e)
    ∧ (∀ (fetch : Nat → Except String CongressPage) (page fuel : Nat)
        (acc : List Doc) (e : String),
        fetch page = .error e → congressLoop fetch (fuel + 1) page acc = acc)
    ∧ (∀ e : String, fetch_govinfo_bulk (.error e) = []) := by
  refine ⟨?_, ?_, ?_⟩
  · intro fetchApi fetchDoc parse pagesize page fuel e h
    simp [ingestLoop, h]
  · intro fetch page fuel acc e h
    simp [congressLoop, h]
  · intro e
    rfl

/-- Witness for `page_fetch_error_behavior` at concrete failing
fetches. -/
theorem page_fetch_error_behavior_witness :
    ingestLoop (fun _ => .error "boom") (fun _ => .ok "") (fun _ => Option.none)
        100 1 1 = .error "boom"
    ∧ congressLoop (fun _ => .error "down") 1 1 [] = []
    ∧ fetch_govinfo_bulk (.error "gone") = [] :=
  ⟨page_fetch_error_behavior.1 _ _ _ 100 1 0 "boom" rfl,
   page_fetch_error_behavior.2.1 _ 1 0 [] "down" rfl,
   page_fetch_error_behavior.2.2 "gone"⟩

/-- Counterexample to C3 as stated: `fetch_congress_data` with a source
whose page 1 succeeds (announcing a next page) and whose page 2 fetch
fails returns the partial item list of page 1 as an ordinary success
result — the failure neither propagates nor terminates the run with an
error. -/
theorem congress_partial_results_cex :
    fetch_congress_data
        (fun p => if p = 1 then .ok ⟨[[("id", PyVal.str "A")]], PyVal.str "2"⟩
          else .error "boom") 5 =
      [[("id", PyVal.str "A")]] := rfl

/-- C4: when the per-document body fetch of a listing item fails, the
`try`/`except` inside the item loop converts the failure into the
`<fetch-error>...</fetch-error>` placeholder string, the item is still
emitted, and the page run completes normally, emitting one record per
listing item in order. -/
theorem doc_fetch_error_placeholder (fetchDoc : String → Except String String)
    (parse : String → Option Soup) (it : Item) (u e : String)
    (pre post : List Item)
    (hu : itemUrl it = PyVal.str u) (hne : u ≠ "") (hf : fetchDoc u = .error e)
    (hlen : (pre ++ it :: post).length < 100) :
    (processItem fetchDoc parse it).content =
      PyVal.str ("<fetch-error>" ++ e ++ "</fetch-error>")
    ∧ ingest_govinfo_collection
        (fun _ => .ok ⟨some (pre ++ it :: post), Option.none⟩) fetchDoc parse 1 =
      .ok ((pre ++ it :: post).map (processItem fetchDoc parse), 1) := by
  constructor
  · have htruthy : pyTruthy (itemUrl it) = true := by simp [hu, pyTruthy, hne]
    simp only [processItem, hu, htruthy, pyToStr, hf, if_true]
    rw [hu] at htruthy
    simp [htruthy, hf, pyToStr]
  · have hempty : (pre ++ it :: post).isEmpty = false := by
      cases pre <;> rfl
    simp [ingest_govinfo_collection, ingestLoop, respItems, hempty,
      Nat.not_lt.mpr, hlen]

/-- Witness for `doc_fetch_error_placeholder`: a single-item page whose
body fetch times out is emitted with the placeholder content. -/
theorem doc_fetch_error_placeholder_witness :
    (processItem (fun _ => .error "timeout") (fun _ => Option.none)
        [("url", PyVal.str "http://fail")]).content =
      PyVal.str ("<fetch-error>" ++ "timeout" ++ "</fetch-error>")
    ∧ ingest_govinfo_collection
        (fun _ => .ok ⟨some ([] ++ [("url", PyVal.str "http://fail")] :: []), Option.none⟩)
        (fun _ => .error "timeout") (fun _ => Option.none) 1 =
      .ok (([] ++ [("url", PyVal.str "http://fail")] :: []).map
        (processItem (fun _ => .error "timeout") (fun _ => Option.none)), 1) :=
  doc_fetch_error_placeholder (fun _ => .error "timeout") (fun _ => Option.none)
    [("url", PyVal.str "http://fail")] "http://fail" "timeout" [] []
    rfl (by decide) rfl (by decide)

/-- Keys of the records let through by `dedupe_and_emit` are pairwise
distinct and avoid everything already in the `_SEEN` set. -/
theorem dedupeRun_nodup_aux (sha1hex : String → String) :
    ∀ (rs : List Record) (seen : List PyVal),
      ((dedupeRun sha1hex rs seen).map (dedupKey sha1hex)).Nodup
      ∧ ∀ r ∈ dedupeRun sha1hex rs seen, dedupKey sha1hex r ∉ seen := by
  intro rs
  induction rs with
  | nil => intro seen; exact ⟨by simp [dedupeRun], by simp [dedupeRun]⟩
  | cons r rs ih =>
    intro seen
    unfold dedupeRun
    by_cases h : dedupKey sha1hex r ∈ seen
    · simpa [h] using ih seen
    · simp only [h, if_false]
      constructor
      · rw [List.map_cons, List.nodup_cons]
        refine ⟨fun hmem => ?_, (ih (dedupKey sha1hex r :: seen)).1⟩
        rw [List.mem_map] at hmem
        obtain ⟨x, hx, hkx⟩ := hmem
        exact (ih _).2 x hx (hkx ▸ List.mem_cons_self _ _)
      · intro x hx
        rcases List.mem_cons.mp hx with h1 | h2
        · subst h1; exact h
        · exact fun hxs => (ih _).2 x h2 (List.mem_cons_of_mem _ hxs)

/-- C2 (amended): among the records that `dedupe_and_emit` lets through
to `emit` within one run, no two share a dedup key, for any hash
function; in particular feeding the same record twice emits it exactly
once. -/
theorem dedupe_and_emit_no_shared_key :
    (∀ (sha1hex : String → String) (records : List Record),
        ((dedupeRun sha1hex records []).map (dedupKey sha1hex)).Nodup)
    ∧ ∀ (sha1hex : String → String) (r : Record),
        dedupeRun sha1hex [r, r] [] = [r] := by
  constructor
  · intro s rs
    exact (dedupeRun_nodup_aux s rs []).1
  · intro s r
    simp [dedupeRun]

/-- Counterexample to C2 as stated: `ingest_govinfo_collection` emits
through `emit` directly, never consulting `dedupe_and_emit`, so a
listing that repeats the same url yields two emitted records with the
same dedup key. -/
theorem govinfo_emit_shared_key_cex :
    emittedKeys (fun _ => "")
        (ingest_govinfo_collection
          (sliceSource [[("url", PyVal.str "http://x")], [("url", PyVal.str "http://x")]] 100)
          (fun _ => .ok "c") (fun _ => Option.none) 1) =
      [PyVal.str "http://x", PyVal.str "http://x"]
    ∧ ¬ ([PyVal.str "http://x", PyVal.str "http://x"] : List PyVal).Nodup :=
  ⟨rfl, by decide⟩

/-- Every record in a successful pager outcome comes from `processItem`
applied to some listing item. -/
theorem ingestLoop_records_are_processed (fetchApi : Nat → Except String Resp)
    (fetchDoc : String → Except String String) (parse : String → Option Soup)
    (pagesize : Nat) :
    ∀ (fuel page : Nat) (recs : List Record) (calls : Nat),
      ingestLoop fetchApi fetchDoc parse pagesize fuel page = .ok (recs, calls) →
      ∀ r ∈ recs, ∃ it, r = processItem fetchDoc parse it := by
  intro fuel
  induction fuel with
  | zero =>
    intro page recs calls h r hr
    simp only [ingestLoop, Except.ok.injEq, Prod.mk.injEq] at h
    rw [← h.1] at hr
    simp at hr
  | succ n ih =>
    intro page recs calls h r hr
    unfold ingestLoop at h
    cases hf : fetchApi ((page - 1) * pagesize) with
    | error e => rw [hf] at h; exact absurd h (by simp)
    | ok resp =>
      rw [hf] at h
      by_cases hempty : (respItems resp).isEmpty
      · simp only [hempty, if_true, Except.ok.injEq, Prod.mk.injEq] at h
        rw [← h.1] at hr
        simp at hr
      · by_cases hlt : (respItems resp).length < pagesize
        · simp [hempty, hlt] at h
          rw [← h.1] at hr
          obtain ⟨it, _, hit⟩ := List.mem_map.mp hr
          exact ⟨it, hit.symm⟩
        · cases hrec : ingestLoop fetchApi fetchDoc parse pagesize n (page + 1) with
          | error e => simp [hempty, hlt, hrec] at h
          | ok p =>
            simp [hempty, hlt, hrec] at h
            rw [← h.1] at hr
            rcases List.mem_append.mp hr with hl | hrr
            · obtain ⟨it, _, hit⟩ := List.mem_map.mp hl
              exact ⟨it, hit.symm⟩
            · exact ih (page + 1) p.1 p.2 (by rw [hrec]) r hrr

/-- C7 (amended): every record built at the four emit sites carries a
non-empty `source` tag (`govinfo`, `worker` or `congress`), and its
`content` is a string — never `None` — at every site except the JSON
branch of `ingest_worker`, which forwards `data.get('content')`
verbatim.  Conjuncts: govinfo pager records, any `ingest_worker`
record's source, the full record of `ingest_worker`'s HTML branch
(string content), and the `congress` record of `main`. -/
theorem emitted_record_source_content :
    (∀ (fetchApi : Nat → Except String Resp)
        (fetchDoc : String → Except String String) (parse : String → Option Soup)
        (pagesize fuel page : Nat) (recs : List Record) (calls : Nat),
        ingestLoop fetchApi fetchDoc parse pagesize fuel page = .ok (recs, calls) →
        ∀ r ∈ recs, r.source = PyVal.str "govinfo" ∧ ∃ s, r.content = PyVal.str s)
    ∧ (∀ (parse : String → Option Soup) (fetch : String → Except String WorkerResp)
        (worker_url path : String) (rec : Record),
        ingest_worker parse fetch worker_url path = .ok rec →
        rec.source = PyVal.str "worker")
    ∧ (∀ (parse : String → Option Soup) (fetch : String → Except String WorkerResp)
        (worker_url path : String) (resp : WorkerResp),
        fetch (workerTarget worker_url path) = .ok resp →
        strIn "application/json" resp.contentTypeHeader = false →
        ingest_worker parse fetch worker_url path =
          .ok { url := PyVal.str (workerTarget worker_url path)
                title := pyOr (pyOfOpt (extract_metadata parse resp.text).title) (PyVal.str "")
                date := pyOfOpt (extract_metadata parse resp.text).date
                content := PyVal.str resp.text
                source := PyVal.str "worker" })
    ∧ (∀ target content : String,
        (congressRecord target content).source = PyVal.str "congress"
        ∧ (congressRecord target content).content = PyVal.str content) := by
  refine ⟨?_, ?_, ?_, ?_⟩
  · intro fetchApi fetchDoc parse pagesize fuel page recs calls h r hr
    obtain ⟨it, hit⟩ :=
      ingestLoop_records_are_processed fetchApi fetchDoc parse pagesize fuel page
        recs calls h r hr
    subst hit
    exact ⟨rfl, _, rfl⟩
  · intro parse fetch worker_url path rec h
    simp only [ingest_worker] at h
    cases hf : fetch (workerTarget worker_url path) with
    | error e => rw [hf] at h; exact absurd h (by simp)
    | ok r =>
      rw [hf] at h
      by_cases hj : strIn "application/json" r.contentTypeHeader
      · cases hjson : r.json with
        | none => simp [hj, hjson] at h
        | some data =>
          simp [hj, hjson] at h
          rw [← h]
      · simp [hj] at h
        rw [← h]
  · intro parse fetch worker_url path resp hf hct
    simp only [ingest_worker]
    rw [hf]
    simp [hct]
  · intro target content
    exact ⟨rfl, rfl⟩

/-- Witness for `emitted_record_source_content`, instantiating each
conjunct at concrete runs. -/
theorem emitted_record_source_content_witness :
    ((processItem (fun _ => .ok "c") (fun _ => Option.none)
        [("url", PyVal.str "http://x")]).source = PyVal.str "govinfo"
      ∧ ∃ s, (processItem (fun _ => .ok "c") (fun _ => Option.none)
        [("url", PyVal.str "http://x")]).content = PyVal.str s)
    ∧ (Record.mk (PyVal.str "http://w") (PyVal.str "") PyVal.none (PyVal.str "<p>hi")
        (PyVal.str "worker")).source = PyVal.str "worker"
    ∧ ingest_worker (fun _ => Option.none)
        (fun _ => .ok ⟨"text/html", "<p>hi", Option.none⟩) "http://w" "" =
      .ok { url := PyVal.str (workerTarget "http://w" "")
            title := pyOr (pyOfOpt (extract_metadata (fun _ => Option.none) "<p>hi").title)
              (PyVal.str "")
            date := pyOfOpt (extract_metadata (fun _ => Option.none) "<p>hi").date
            content := PyVal.str "<p>hi"
            source := PyVal.str "worker" }
    ∧ ((congressRecord "https://www.congress.gov/" "body").source = PyVal.str "congress"
      ∧ (congressRecord "https://www.congress.gov/" "body").content = PyVal.str "body") :=
  ⟨emitted_record_source_content.1
      (fun _ => .ok ⟨some [[("url", PyVal.str "http://x")]], Option.none⟩)
      (fun _ => .ok "c") (fun _ => Option.none) 100 1 1
      [processItem (fun _ => .ok "c") (fun _ => Option.none) [("url", PyVal.str "http://x")]]
      1 rfl _ (List.mem_singleton.mpr rfl),
   emitted_record_source_content.2.1 (fun _ => Option.none)
      (fun _ => .ok ⟨"text/html", "<p>hi", Option.none⟩) "http://w" ""
      (Record.mk (PyVal.str "http://w") (PyVal.str "") PyVal.none (PyVal.str "<p>hi")
        (PyVal.str "worker")) rfl,
   emitted_record_source_content.2.2.1 (fun _ => Option.none)
      (fun _ => .ok ⟨"text/html", "<p>hi", Option.none⟩) "http://w" ""
      ⟨"text/html", "<p>hi", Option.none⟩ rfl rfl,
   emitted_record_source_content.2.2.2 "https://www.congress.gov/" "body"⟩

/-- Counterexample to C7 as stated: a worker whose JSON response lacks
the `content` key makes `ingest_worker` emit a record whose `content`
field is `None` (serialized as JSON `null`), not a string. -/
theorem worker_json_null_content_cex :
    contentOf (ingest_worker (fun _ => Option.none)
        (fun _ => .ok ⟨"application/json", "", some []⟩) "http://w" "") = PyVal.none
    ∧ PyVal.none ≠ PyVal.str "" :=
  ⟨rfl, by decide⟩

/-- Evaluating `resp.get('items') or resp.get('results') or []` on a response that
carries an `items` list and no `results` key is that items list (also
when it is empty). -/
theorem respItems_some (xs : List Item) : respItems ⟨some xs, Option.none⟩ = xs := by
  simp only [respItems, Option.getD_some, Option.getD_none]
  cases hxs : xs.isEmpty with
  | true => simp [List.isEmpty_iff.mp hxs]
  | false => simp

/-- Running the pager of `ingest_govinfo_collection` against the
paginated source over `L` from page `page` onwards (with enough fuel)
emits exactly the remaining items, in order, with
`remaining / P + 1` page-fetch calls. -/
theorem ingestLoop_slice (L : List Item) (fetchDoc : String → Except String String)
    (parse : String → Option Soup) (P : Nat) (hP : 0 < P) :
    ∀ (fuel page : Nat), 1 ≤ page →
      (L.drop ((page - 1) * P)).length / P + 1 ≤ fuel →
      ingestLoop (sliceSource L P) fetchDoc parse P fuel page =
        .ok ((L.drop ((page - 1) * P)).map (processItem fetchDoc parse),
          (L.drop ((page - 1) * P)).length / P + 1) := by
  intro fuel
  induction fuel with
  | zero =>
    intro page hpage hfuel
    exact absurd hfuel (Nat.not_succ_le_zero _)
  | succ n ih =>
    intro page hpage hfuel
    have hslice : sliceSource L P ((page - 1) * P) =
        .ok ⟨some ((L.drop ((page - 1) * P)).take P), Option.none⟩ := rfl
    simp only [ingestLoop, hslice, respItems_some]
    set rem := L.drop ((page - 1) * P) with hrem
    by_cases hrem0 : rem = []
    · simp [hrem0]
    · by_cases hlt : rem.length < P
      · have htake : rem.take P = rem := List.take_of_length_le (Nat.le_of_lt hlt)
        rw [htake]
        have hempty : rem.isEmpty = false := by
          cases h : rem.isEmpty with
          | false => rfl
          | true => exact absurd (List.isEmpty_iff.mp h) hrem0
        simp [hempty, hlt, Nat.div_eq_of_lt hlt]
      · have hge : P ≤ rem.length := Nat.le_of_not_lt hlt
        have htlen : (rem.take P).length = P := by
          rw [List.length_take]
          omega
        have htne : (rem.take P).isEmpty = false := by
          cases hc : (rem.take P).isEmpty with
          | false => rfl
          | true =>
            rw [List.isEmpty_iff.mp hc] at htlen
            simp at htlen
            omega
        have harith : page * P = (page - 1) * P + P := by
          have h1 : page = (page - 1) + 1 := by omega
          calc page * P = ((page - 1) + 1) * P := by rw [← h1]
            _ = (page - 1) * P + P := Nat.succ_mul _ _
        have hdrop : rem.drop P = L.drop (page * P) := by
          rw [hrem, List.drop_drop, harith, Nat.add_comm]
        have hdiv : rem.length / P = (rem.length - P) / P + 1 :=
          Nat.div_eq_sub_div hP hge
        have hd2 : L.drop ((page + 1 - 1) * P) = rem.drop P := by
          have hpp : page + 1 - 1 = page := rfl
          rw [hpp, ← hdrop]
        have hbound : (L.drop ((page + 1 - 1) * P)).length / P + 1 ≤ n := by
          rw [hd2, List.length_drop]
          generalize hA : (rem.length - P) / P = a at hdiv
          generalize hB : rem.length / P = b at hdiv hfuel
          omega
        have hIH := ih (page + 1) (by omega) hbound
        rw [hd2] at hIH
        simp only [htne, Bool.false_eq_true, if_false, htlen, Nat.lt_irrefl, hIH]
        rw [← List.map_append, List.take_append_drop, List.length_drop, hdiv]

/-- C1 (amended): against a paginated source with N total items served
in full pages of the requested size 100 (each page full except possibly
the last), `ingest_govinfo_collection` processes exactly the N items in
order and issues exactly N / 100 + 1 page-fetch calls — that is
ceil(N/100) when 100 does not divide N, and one extra trailing
empty-page call when it does (a single call when N = 0) — terminating
on the first page whose returned batch is empty or strictly smaller
than the requested page size. -/
theorem ingest_pagination_yields_all_items (L : List Item)
    (fetchDoc : String → Except String String) (parse : String → Option Soup)
    (fuel : Nat) (hfuel : L.length / 100 + 1 ≤ fuel) :
    ingest_govinfo_collection (sliceSource L 100) fetchDoc parse fuel =
      .ok (L.map (processItem fetchDoc parse), L.length / 100 + 1) := by
  have h := ingestLoop_slice L fetchDoc parse 100 (by omega) fuel 1 (Nat.le_refl 1)
    (by simpa using hfuel)
  simpa [ingest_govinfo_collection] using h

/-- Witness for `ingest_pagination_yields_all_items`: a one-item source
is ingested in a single page call. -/
theorem ingest_pagination_yields_all_items_witness :
    ingest_govinfo_collection (sliceSource [([] : Item)] 100) (fun _ => .ok "")
        (fun _ => Option.none) 1 =
      .ok ([([] : Item)].map (processItem (fun _ => .ok "") (fun _ => Option.none)), 1) :=
  ingest_pagination_yields_all_items [([] : Item)] (fun _ => .ok "")
    (fun _ => Option.none) 1 (by decide)

/-- Counterexample to C1 as stated: with N = 100 items and requested
page size P = 100 (so P divides N), the pager issues 2 page-fetch
calls, not ceil(N/P) = 1 — after the full first page it must fetch the
empty second page to stop. -/
theorem pagination_call_count_cex :
    callsOf (ingest_govinfo_collection
        (sliceSource (List.replicate 100 ([] : Item)) 100)
        (fun _ => .ok "") (fun _ => Option.none) 3) = 2
    ∧ (2 : Nat) ≠ (100 + 100 - 1) / 100 := by
  exact ⟨rfl, by decide⟩
